import Mathlib

/-!
Shallow embedding of the fan-out query / ingest orchestrator of wagov/python-squ:

* `main.py::analytics_query` — sorts the workspace ids, slices them into chunks
  of `chunkSize` (20 in the source) and issues one grouped remote call per chunk;
* `squ/api.py::analytics_query` — a single grouped call with a per-workspace
  fallback on failure, tagging fallback rows with `TenantId`;
* `squ/api.py::kql2df` — the retrying materializer with linear backoff;
* `squ/api.py::ingest_datalake_hot` — the ingestion scheduler.

The remote executor (`azcli` / `adx_query`) is an external collaborator and is
modelled as an oracle passed to each function; the kql loader is the identity on
inline query text (both are external boundaries per the architecture).
-/

/-- A row returned by the log-analytics backend: a JSON object, modelled as an
ordered association list of field name to (string) value, mirroring a Python dict. -/
abbrev Row := List (String × String)

/-- Python `d.update(\x7bk: v\x7d)` for a single key: if the key is present its value
is replaced in place (position preserved), otherwise the pair is appended. -/
def dictUpdate (row : Row) (k v : String) : Row :=
  if row.any (fun p => p.1 == k) then
    row.map (fun p => if p.1 == k then (k, v) else p)
  else row ++ [(k, v)]

/-- Python's `<=` on strings, on the underlying character lists: lexicographic
comparison by Unicode code point. -/
def pyLeB : List Char → List Char → Bool
  | [], _ => true
  | _ :: _, [] => false
  | a :: as, b :: bs =>
    if a < b then true
    else if b < a then false
    else pyLeB as bs

/-- Python's `<=` on strings. -/
def pyLe (a b : String) : Prop := pyLeB a.toList b.toList = true

instance : DecidableRel pyLe := fun _ _ => instDecidableEqBool _ _

theorem pyLeB_total (as bs : List Char) : pyLeB as bs = true ∨ pyLeB bs as = true := by
  induction as generalizing bs with
  | nil => left; rfl
  | cons a as ih =>
    cases bs with
    | nil => right; rfl
    | cons b bs =>
      by_cases h1 : a < b
      · left; simp [pyLeB, h1]
      · by_cases h2 : b < a
        · right; simp [pyLeB, h2]
        · rcases ih bs with h | h
          · left; simp [pyLeB, h1, h2, h]
          · right; simp [pyLeB, h1, h2, h]

theorem pyLeB_trans (as bs cs : List Char) (h1 : pyLeB as bs = true)
    (h2 : pyLeB bs cs = true) : pyLeB as cs = true := by
  induction as generalizing bs cs with
  | nil => rfl
  | cons a as ih =>
    cases bs with
    | nil => simp [pyLeB] at h1
    | cons b bs =>
      cases cs with
      | nil => simp [pyLeB] at h2
      | cons c cs =>
        by_cases hab : a < b
        · by_cases hbc : b < c
          · simp [pyLeB, lt_trans hab hbc]
          · by_cases hcb : c < b
            · simp [pyLeB, hbc, hcb] at h2
            · have hbc' : b = c := le_antisymm (not_lt.mp hcb) (not_lt.mp hbc)
              subst hbc'
              simp [pyLeB, hab]
        · by_cases hba : b < a
          · simp [pyLeB, hab, hba] at h1
          · have hab' : a = b := le_antisymm (not_lt.mp hba) (not_lt.mp hab)
            subst hab'
            simp [pyLeB, hab] at h1
            by_cases hbc : a < c
            · simp [pyLeB, hbc]
            · by_cases hcb : c < a
              · simp [pyLeB, hbc, hcb] at h2
              · simp [pyLeB, hbc, hcb] at h2 ⊢
                exact ih bs cs h1 h2

theorem pyLeB_antisymm (as bs : List Char) (h1 : pyLeB as bs = true)
    (h2 : pyLeB bs as = true) : as = bs := by
  induction as generalizing bs with
  | nil =>
    cases bs with
    | nil => rfl
    | cons b bs => simp [pyLeB] at h2
  | cons a as ih =>
    cases bs with
    | nil => simp [pyLeB] at h1
    | cons b bs =>
      by_cases hab : a < b
      · simp [pyLeB, hab, lt_asymm hab] at h2
      · by_cases hba : b < a
        · simp [pyLeB, hab, hba] at h1
        · have hab' : a = b := le_antisymm (not_lt.mp hba) (not_lt.mp hab)
          subst hab'
          simp [pyLeB, hab] at h1 h2
          rw [ih bs h1 h2]

theorem string_eq_of_toList (s t : String) (h : s.toList = t.toList) : s = t := by
  cases s
  cases t
  simpa [String.toList] using congrArg String.mk h

instance : IsTotal String pyLe := ⟨fun a b => pyLeB_total a.toList b.toList⟩
instance : IsTrans String pyLe :=
  ⟨fun a b c h1 h2 => pyLeB_trans a.toList b.toList c.toList h1 h2⟩
instance : IsAntisymm String pyLe :=
  ⟨fun a b h1 h2 => string_eq_of_toList a b (pyLeB_antisymm a.toList b.toList h1 h2)⟩

/-- Python `sorted` on workspace ids: a stable ascending sort.  Since the
code-point order `pyLe` is a linear order, the sorted permutation of a list is
unique, so insertion sort is an exact model of the source's sort. -/
def pySorted (l : List String) : List String := List.insertionSort pyLe l

/-- The chunking comprehension of `main.py::analytics_query`:
`[l[x : x + m] for x in range(0, len(l), m)]`, where `range(0, n, m)` enumerates
the multiples of `m` below `n`, that is `i * m` for `i < (n + m - 1) / m`. -/
def sliceChunks (m : Nat) (l : List α) : List (List α) :=
  (List.range ((l.length + m - 1) / m)).map (fun i => (l.drop (i * m)).take m)

theorem sliceChunks_nil (m : Nat) : sliceChunks m ([] : List α) = [] := by
  unfold sliceChunks
  have h : (([] : List α).length + m - 1) / m = 0 := by
    rcases Nat.eq_zero_or_pos m with hm | hm
    · subst hm; rw [Nat.div_zero]
    · rw [List.length_nil, Nat.zero_add, Nat.div_eq_of_lt (by omega)]
  rw [h]
  rfl

theorem sliceChunks_cons (m : Nat) (hm : 0 < m) (l : List α) (hl : l ≠ []) :
    sliceChunks m l = l.take m :: sliceChunks m (l.drop m) := by
  have hn : 0 < l.length := List.length_pos.mpr hl
  have hcount : (l.length + m - 1) / m = ((l.drop m).length + m - 1) / m + 1 := by
    rw [List.length_drop]
    rcases Nat.le_total m l.length with h | h
    · have he : l.length + m - 1 = (l.length - m + m - 1) + m := by omega
      rw [he, Nat.add_div_right _ hm]
    · have h1 : l.length - m = 0 := by omega
      have h2 : (l.length + m - 1) / m = 1 :=
        Nat.div_eq_of_lt_le (by omega) (by omega)
      have h3 : (0 + m - 1) / m = 0 := Nat.div_eq_of_lt (by omega)
      rw [h1, h2, h3]
  unfold sliceChunks
  rw [hcount, List.range_succ_eq_map, List.map_cons, List.map_map]
  have h0 : (0 * m : Nat) = 0 := Nat.zero_mul m
  rw [h0, List.drop_zero]
  congr 1
  apply List.map_congr_left
  intro i _
  show (l.drop (Nat.succ i * m)).take m = ((l.drop m).drop (i * m)).take m
  rw [List.drop_drop, Nat.succ_mul, Nat.add_comm (i * m) m]

theorem sliceChunks_flatten (m : Nat) (hm : 0 < m) (l : List α) :
    (sliceChunks m l).flatten = l := by
  by_cases hl : l = []
  · subst hl; rw [sliceChunks_nil]; rfl
  · rw [sliceChunks_cons m hm l hl, List.flatten_cons,
      sliceChunks_flatten m hm (l.drop m), List.take_append_drop]
termination_by l.length
decreasing_by
  have := List.length_pos.mpr hl
  rw [List.length_drop]; omega

theorem sliceChunks_length_le (m : Nat) (l : List α) :
    ∀ b ∈ sliceChunks m l, b.length ≤ m := by
  intro b hb
  unfold sliceChunks at hb
  rw [List.mem_map] at hb
  obtain ⟨i, _, rfl⟩ := hb
  exact List.length_take_le m _

theorem sliceChunks_count (m : Nat) (l : List α) :
    (sliceChunks m l).length = (l.length + m - 1) / m := by
  unfold sliceChunks
  rw [List.length_map, List.length_range]

theorem sliceChunks_full (m : Nat) (hm : 0 < m) (l : List α) :
    ∀ i, i + 1 < (sliceChunks m l).length →
      ((sliceChunks m l).getD i []).length = m := by
  intro i hi
  by_cases hl : l = []
  · subst hl; rw [sliceChunks_nil] at hi; simp at hi
  · rw [sliceChunks_cons m hm l hl] at hi ⊢
    match i with
    | 0 =>
      rw [List.getD_cons_zero]
      have htail : sliceChunks m (l.drop m) ≠ [] := by
        intro he
        rw [List.length_cons, he] at hi
        simp at hi
      have hdrop : l.drop m ≠ [] := by
        intro he
        rw [he, sliceChunks_nil] at htail
        exact htail rfl
      have hlen : m < l.length := by
        have := List.length_pos.mpr hdrop
        rw [List.length_drop] at this
        omega
      rw [List.length_take]
      omega
    | Nat.succ j =>
      rw [List.getD_cons_succ]
      apply sliceChunks_full m hm (l.drop m) j
      rw [List.length_cons] at hi
      omega
termination_by l.length
decreasing_by
  have := List.length_pos.mpr hl
  rw [List.length_drop]; omega

theorem pySorted_sorted (l : List String) : List.Sorted pyLe (pySorted l) :=
  List.sorted_insertionSort pyLe l

theorem pySorted_perm (l : List String) : (pySorted l).Perm l :=
  List.perm_insertionSort pyLe l

theorem pySorted_perm_eq (ws ws2 : List String) (h : ws2.Perm ws) :
    pySorted ws2 = pySorted ws :=
  List.eq_of_perm_of_sorted
    ((pySorted_perm ws2).trans (h.trans (pySorted_perm ws).symm))
    (pySorted_sorted ws2) (pySorted_sorted ws)

namespace Main

/-- `main.py::analytics_query`: loads the query (identity on inline text), sorts
the workspaces and slices them into chunks of `chunkSize'`, builds one grouped
`az monitor log-analytics query` command per chunk, submits every command to the
executor and concatenates the rows of the results in command order (a falsy
result — `None` or an empty list — is skipped by `if result:`, contributing no
rows).  `azcli` is the remote executor oracle: `none` models a falsy result.
The source fixes the chunk size to the constant 20 (`Main.chunkSize`); it is a
parameter here because the claims quantify over the fan-out limit.
Returns the stitched results together with the list of issued commands. -/
def analytics_query (azcli : List String → Option (List Row))
    (workspaces : List String) (query timespan outputfilter : String)
    (chunkSize' : Nat) : List Row × List (List String) :=
  let chunks := sliceChunks chunkSize' (pySorted workspaces)
  let cmds := chunks.map (fun chunk =>
    ["monitor", "log-analytics", "query", "--workspace", chunk.headD (""),
      "--analytics-query", query, "--timespan", timespan]
    ++ (if chunk.length > 1 then ["--workspaces"] ++ chunk.tail else [])
    ++ (if outputfilter ≠ "" then ["--query", outputfilter] else []))
  ((cmds.map (fun cmd => (azcli cmd).getD [])).flatten, cmds)

/-- The platform fan-out limit hardcoded in `main.py` (`chunkSize = 20`). -/
def chunkSize : Nat := 20

end Main

namespace Api

/-- Python `shlex.quote` safe characters: ASCII letters, digits, and
`_ @ % + = : , . / -` (the complement of the unsafe-character class). -/
def shlexSafe (c : Char) : Bool :=
  c.isAlphanum || (("_@%+=:,./-").toList.contains c)

/-- The single-quote character (code point 39). -/
def squote : String := String.mk [Char.ofNat 39]

/-- Python `shlex.quote`: the empty string becomes a pair of single quotes,
a string of safe characters is returned unchanged, and anything else is wrapped
in single quotes with every embedded single quote rewritten to the
quote/double-quote escape sequence. -/
def shlexQuote (s : String) : String :=
  if s = "" then squote ++ squote
  else if s.toList.all shlexSafe then s
  else
    squote ++
      String.mk (s.toList.flatMap (fun c =>
        if c = Char.ofNat 39 then
          (squote ++ "\"" ++ squote ++ "\"" ++ squote).toList
        else [c])) ++
      squote

/-- Python `shlex.join`: quoted tokens joined by single spaces. -/
def shlexJoin (args : List String) : String :=
  String.intercalate (" ") (args.map shlexQuote)

/-- Result of `squ/api.py::analytics_query`: either the dry-run command string or
the stitched row list. -/
inductive AQOut
  | cmd (s : String)
  | rows (rs : List Row)
deriving DecidableEq

/-- The grouped command of `squ/api.py::analytics_query`: the base command, the
first workspace as `--workspace`, and the remaining workspaces (when any) as
`--workspaces`. -/
def groupedCmd (query timespan : String) (w0 : String) (rest : List String) :
    List String :=
  ["monitor", "log-analytics", "query", "--analytics-query", query,
    "--timespan", timespan, "--workspace", w0]
  ++ (if rest.length > 0 then ["--workspaces"] ++ rest else [])

/-- The per-workspace fallback command: the base command plus `--workspace`. -/
def singleCmd (query timespan w : String) : List String :=
  ["monitor", "log-analytics", "query", "--analytics-query", query,
    "--timespan", timespan, "--workspace", w]

/-- Helper for `dedupFirst`: keeps the first occurrence of each key, tracking
the keys already seen. -/
def dedupFirstAux (acc : List String) : List String → List String
  | [] => []
  | w :: ws => if w ∈ acc then dedupFirstAux acc ws else w :: dedupFirstAux (acc ++ [w]) ws

/-- The key sequence of a Python dict comprehension over a list: duplicate keys
collapse onto their first occurrence (later duplicates merely overwrite the
value, which is built the same way here). -/
def dedupFirst (l : List String) : List String := dedupFirstAux [] l

/-- The fallback loop of `squ/api.py::analytics_query`: one `azcli` call per
workspace (the futures dict is keyed by workspace, so duplicate ids collapse);
a call that raises is logged and yields `[]`; every row of a successful call
gets `TenantId` set to the workspace id via `dict.update`; rows are
concatenated in workspace order once all futures complete. -/
def fallbackRows (azcli : List String → Option (List Row))
    (query timespan : String) (workspaces : List String) : List Row :=
  ((dedupFirst workspaces).map (fun w =>
    match azcli (singleCmd query timespan w) with
    | some result => result.map (fun item => dictUpdate item ("TenantId") w)
    | none => [])).flatten

/-- `squ/api.py::analytics_query`: when `group_queries` is set, the workspace
list is a singleton, or `dry_run` is set, the grouped command is built (raising
`IndexError` at `workspaces[0]` if the list is empty); on `dry_run` the
shell-quoted command is returned without issuing any remote call; otherwise the
grouped call is attempted and on any failure — and likewise when the grouped
branch is not taken — the per-workspace fallback results are stitched.
`azcli` is the remote executor oracle; `none` models a raised exception (for
query commands a successful `az` invocation always emits a JSON array, so
success is modelled as returning a row list).  The kql loader is the identity
on inline query text (external boundary).  Returns the result together with the
list of commands issued to the remote executor. -/
def analytics_query (azcli : List String → Option (List Row))
    (workspaces : List String) (query : String) (timespan : String)
    (group_queries : Bool) (dry_run : Bool) :
    Except String AQOut × List (List String) :=
  if group_queries || workspaces.length == 1 || dry_run then
    match workspaces with
    | [] => (Except.error ("list index out of range"), [])
    | w0 :: rest =>
      let cmd := groupedCmd query timespan w0 rest
      if dry_run then
        (Except.ok (AQOut.cmd (shlexJoin (["az"] ++ cmd))), [])
      else
        match azcli cmd with
        | some result => (Except.ok (AQOut.rows result), [cmd])
        | none =>
          (Except.ok (AQOut.rows (fallbackRows azcli query timespan workspaces)),
            [cmd] ++ (dedupFirst workspaces).map (singleCmd query timespan))
  else
    (Except.ok (AQOut.rows (fallbackRows azcli query timespan workspaces)),
      (dedupFirst workspaces).map (singleCmd query timespan))

/-- A JSON value of the nesting depth `kql2df` flattens: a scalar or a
one-level object. -/
inductive JValue
  | str (s : String)
  | obj (fields : List (String × String))
deriving DecidableEq

/-- A nested row as returned by `analytics_query` before flattening. -/
abbrev JRow := List (String × JValue)

/-- `pandas.json_normalize(data, max_level=1)`: flattens one nesting level,
joining keys with a dot; one output row per input record. -/
def jsonNormalize (data : List JRow) : List Row :=
  data.map (fun r => r.flatMap (fun p =>
    match p.2 with
    | JValue.str s => [(p.1, s)]
    | JValue.obj fields => fields.map (fun q => (p.1 ++ "." ++ q.1, q.2))))

/-- The leading table token of `kql2df`:
`kql.split("\n")[0].split(" ")[0].strip()`. -/
def leadingToken (kql : String) : String :=
  ((((kql.splitOn ("\n")).headD ("")).splitOn (" ")).headD ("")).trim

/-- The single-row placeholder `kql2df` builds when a query yields no data or
fails with a non-timeout error. -/
def noDataRow (kql timespan : String) : Row :=
  [(leadingToken kql, "No Data in timespan " ++ timespan)]

/-- Outcome of one `analytics_query` attempt inside `kql2df`: a `ReadTimeout`,
any other exception, or a returned record list. -/
inductive QOutcome
  | timeout
  | fail (msg : String)
  | rows (data : List JRow)
deriving DecidableEq

/-- `squ/api.py::kql2df`: runs `analytics_query` (abstracted as an oracle giving
the outcome of each numbered attempt), asserts the data is non-empty and
flattens it; on `ReadTimeout` it retries while `attempt < max_attempts`,
sleeping `1 + attempt * 2` seconds before each retry, and re-raises the timeout
once attempts are exhausted; on empty data (a failed assert) or any other
exception it returns the one-row placeholder instead of raising.  Returns the
result together with the number of underlying attempts made and the list of
backoff sleeps performed. -/
def kql2df (oracle : Nat → QOutcome) (kql timespan : String)
    (attempt max_attempts : Nat) :
    Except String (List Row) × Nat × List Nat :=
  match oracle attempt with
  | QOutcome.rows data =>
    if data.length > 0 then (Except.ok (jsonNormalize data), 1, [])
    else (Except.ok [noDataRow kql timespan], 1, [])
  | QOutcome.fail _ => (Except.ok [noDataRow kql timespan], 1, [])
  | QOutcome.timeout =>
    if h : attempt < max_attempts then
      let r := kql2df oracle kql timespan (attempt + 1) max_attempts
      (r.1, r.2.1 + 1, (1 + attempt * 2) :: r.2.2)
    else (Except.error ("ReadTimeout"), 1, [])
termination_by max_attempts - attempt
decreasing_by omega

/-- A numeric row of an ingestion result table (`df.sum(numeric_only=True)`
only ever looks at numeric columns). -/
abbrev IRow := List (String × Int)

/-- One ingestion job of `ingest_datalake_hot`: its query text and the outcome
of its `adx_query` future (`Except.error` models a raised exception). -/
abbrev IngestJob := String × Except String (List IRow)

/-- Python `s[:300]`. -/
def truncate300 (s : String) : String := String.mk (s.toList.take 300)

/-- The error log of `ingest_datalake_hot`: one message per failed future, in
future order, truncated to 300 characters. -/
def failLog (jobs : List IngestJob) : List String :=
  jobs.flatMap (fun j =>
    match j.2 with
    | Except.error e => [truncate300 (j.1 ++ " failed with " ++ e)]
    | Except.ok _ => [])

/-- The result tables of the succeeding futures of `ingest_datalake_hot`, in
future order. -/
def successTables (jobs : List IngestJob) : List (List IRow) :=
  jobs.flatMap (fun j =>
    match j.2 with
    | Except.error _ => []
    | Except.ok t => [t])

/-- `squ/api.py::ingest_datalake_hot` at the level of job outcomes: the
(shuffled) job list is submitted against the pool, every future is awaited,
failed futures are logged truncated to 300 characters and skipped, and the
succeeding tables are concatenated with `pandas.concat` — which raises
`ValueError` on an empty list — before their numeric columns are summed.
Progress polling and the trailing diagnostics queries are observability only.
Returns the failure log and the concatenated table. -/
def ingest_datalake_hot (jobs : List IngestJob) :
    Except String (List String × List IRow) :=
  match successTables jobs with
  | [] => Except.error ("No objects to concatenate")
  | ts => Except.ok (failLog jobs, ts.flatten)

/-- The per-column numeric sum `df.sum(numeric_only=True)` of a table, at one
column. -/
def colSum (t : List IRow) (c : String) : Int :=
  (t.map (fun r => ((r.filter (fun p => p.1 == c)).map (fun p => p.2)).sum)).sum

end Api

instance {ε α : Type} [DecidableEq ε] [DecidableEq α] : DecidableEq (Except ε α) := fun
  | Except.ok a, Except.ok b =>
    if h : a = b then isTrue (by rw [h]) else isFalse (fun he => by cases he; exact h rfl)
  | Except.error a, Except.error b =>
    if h : a = b then isTrue (by rw [h]) else isFalse (fun he => by cases he; exact h rfl)
  | Except.ok _, Except.error _ => isFalse (fun he => by cases he)
  | Except.error _, Except.ok _ => isFalse (fun he => by cases he)

theorem map_getD_of_map_some (azcli : List String → Option (List Row)) :
    ∀ (cmds : List (List String)) (rets : List (List Row)),
      cmds.map azcli = rets.map some →
      cmds.map (fun c => (azcli c).getD []) = rets := by
  intro cmds
  induction cmds with
  | nil =>
    intro rets h
    cases rets with
    | nil => rfl
    | cons r rs => simp at h
  | cons c cs ih =>
    intro rets h
    cases rets with
    | nil => simp at h
    | cons r rs =>
      rw [List.map_cons, List.map_cons] at h
      obtain ⟨h1, h2⟩ := List.cons.injEq .. ▸ h
      rw [List.map_cons, h1, ih rs h2]
      rfl

/-- C1: for every non-empty workspace set and fan-out limit `m ≥ 1`, when the
remote executor succeeds for every batch in grouped mode, `main.py`'s
`analytics_query` issues exactly `⌈|W| / m⌉` grouped calls (one per chunk) and
returns exactly the concatenation, in batch order, of the rows those calls
returned. -/
theorem c1_fanout_completeness
    (azcli : List String → Option (List Row)) (ws : List String)
    (q ts f : String) (m : Nat) (hne : ws ≠ []) (hm : 1 ≤ m)
    (hsucc : ∀ cmd ∈ (Main.analytics_query azcli ws q ts f m).2,
      (azcli cmd).isSome = true) :
    (Main.analytics_query azcli ws q ts f m).2.length = (ws.length + m - 1) / m ∧
    ∀ rets : List (List Row),
      (Main.analytics_query azcli ws q ts f m).2.map azcli = rets.map some →
      (Main.analytics_query azcli ws q ts f m).1 = rets.flatten := by
  constructor
  · show (_ : List (List String)).length = _
    simp only [Main.analytics_query, List.length_map]
    rw [sliceChunks_count, (pySorted_perm ws).length_eq]
  · intro rets h
    have h1 : (Main.analytics_query azcli ws q ts f m).1 =
        ((Main.analytics_query azcli ws q ts f m).2.map
          (fun c => (azcli c).getD [])).flatten := by
      simp only [Main.analytics_query, List.map_map]
    rw [h1, map_getD_of_map_some azcli _ rets h]

theorem c1_fanout_completeness_witness :
    (["w2", "w1", "w3"] : List String) ≠ [] ∧ 1 ≤ 2 ∧
    ((Main.analytics_query (fun _ => some [[("TimeGenerated", "t")]])
        ["w2", "w1", "w3"] ("q") ("P7D") ("") 2).2.length =
        ((["w2", "w1", "w3"] : List String).length + 2 - 1) / 2 ∧
      ∀ rets : List (List Row),
        (Main.analytics_query (fun _ => some [[("TimeGenerated", "t")]])
          ["w2", "w1", "w3"] ("q") ("P7D") ("") 2).2.map
            (fun _ => some [[("TimeGenerated", "t")]]) = rets.map some →
        (Main.analytics_query (fun _ => some [[("TimeGenerated", "t")]])
          ["w2", "w1", "w3"] ("q") ("P7D") ("") 2).1 = rets.flatten) :=
  ⟨by decide, by decide,
    c1_fanout_completeness (fun _ => some [[("TimeGenerated", "t")]])
      ["w2", "w1", "w3"] ("q") ("P7D") ("") 2 (by decide) (by decide)
      (fun _ _ => rfl)⟩

/-- C2: for every non-empty duplicate-free workspace list and every
`maxFanout ≥ 1`, the batching step of `main.py::analytics_query` sorts the ids
ascending and slices them into consecutive chunks: the flattened batches are a
permutation of the input with no duplicates, sorted ascending; every batch has
size at most `m` and only the last may be smaller; and the batch sequence
depends only on the workspace set (any permutation of the input produces the
identical batches). -/
theorem c2_batching (ws : List String) (m : Nat) (hm : 1 ≤ m) (hne : ws ≠ [])
    (hnd : ws.Nodup) :
    (sliceChunks m (pySorted ws)).flatten.Perm ws ∧
    (sliceChunks m (pySorted ws)).flatten.Nodup ∧
    List.Sorted pyLe (sliceChunks m (pySorted ws)).flatten ∧
    (∀ b ∈ sliceChunks m (pySorted ws), b.length ≤ m) ∧
    (∀ i, i + 1 < (sliceChunks m (pySorted ws)).length →
      ((sliceChunks m (pySorted ws)).getD i []).length = m) ∧
    (∀ ws2 : List String, ws2.Perm ws →
      sliceChunks m (pySorted ws2) = sliceChunks m (pySorted ws)) := by
  have hj : (sliceChunks m (pySorted ws)).flatten = pySorted ws :=
    sliceChunks_flatten m hm _
  refine ⟨?_, ?_, ?_, ?_, ?_, ?_⟩
  · rw [hj]; exact pySorted_perm ws
  · rw [hj]; exact ((pySorted_perm ws).symm).nodup hnd
  · rw [hj]; exact pySorted_sorted ws
  · exact sliceChunks_length_le m _
  · exact sliceChunks_full m hm _
  · intro ws2 h
    rw [pySorted_perm_eq ws ws2 h]

theorem c2_batching_witness :
    1 ≤ 2 ∧ (["b", "a", "c"] : List String) ≠ [] ∧
      (["b", "a", "c"] : List String).Nodup ∧
    ((sliceChunks 2 (pySorted ["b", "a", "c"])).flatten.Perm ["b", "a", "c"] ∧
      (sliceChunks 2 (pySorted ["b", "a", "c"])).flatten.Nodup ∧
      List.Sorted pyLe (sliceChunks 2 (pySorted ["b", "a", "c"])).flatten ∧
      (∀ b ∈ sliceChunks 2 (pySorted ["b", "a", "c"]), b.length ≤ 2) ∧
      (∀ i, i + 1 < (sliceChunks 2 (pySorted ["b", "a", "c"])).length →
        ((sliceChunks 2 (pySorted ["b", "a", "c"])).getD i []).length = 2) ∧
      (∀ ws2 : List String, ws2.Perm ["b", "a", "c"] →
        sliceChunks 2 (pySorted ws2) = sliceChunks 2 (pySorted ["b", "a", "c"]))) :=
  ⟨by decide, by decide, by decide,
    c2_batching ["b", "a", "c"] 2 (by decide) (by decide) (by decide)⟩

theorem dedupFirstAux_eq (l : List String) :
    ∀ acc : List String, (∀ a ∈ l, a ∉ acc) → l.Nodup →
      Api.dedupFirstAux acc l = l := by
  induction l with
  | nil => intro acc _ _; rfl
  | cons w ws ih =>
    intro acc h hnd
    have hw : w ∉ acc := h w (List.mem_cons_self w ws)
    rw [Api.dedupFirstAux, if_neg hw]
    have hrec : ∀ a ∈ ws, a ∉ acc ++ [w] := by
      intro a ha hmem
      rcases List.mem_append.mp hmem with hin | hin
      · exact h a (List.mem_cons_of_mem w ha) hin
      · rw [List.mem_singleton] at hin
        subst hin
        exact (List.nodup_cons.mp hnd).1 ha
    rw [ih (acc ++ [w]) hrec (List.nodup_cons.mp hnd).2]

theorem dedupFirst_eq_self (l : List String) (hnd : l.Nodup) :
    Api.dedupFirst l = l :=
  dedupFirstAux_eq l [] (fun a _ => List.not_mem_nil a) hnd

theorem fallbackRows_eq (azcli : List String → Option (List Row))
    (q ts : String) (ws : List String) (hnd : ws.Nodup) :
    Api.fallbackRows azcli q ts ws =
      (ws.map (fun w => ((azcli (Api.singleCmd q ts w)).getD []).map
        (fun item => dictUpdate item ("TenantId") w))).flatten := by
  unfold Api.fallbackRows
  rw [dedupFirst_eq_self ws hnd]
  congr 1
  apply List.map_congr_left
  intro w _
  cases azcli (Api.singleCmd q ts w) <;> rfl

theorem aq_fst_fallback (azcli : List String → Option (List Row))
    (q ts : String) (gq : Bool) (w0 : String) (rest : List String)
    (hgfail : azcli (Api.groupedCmd q ts w0 rest) = none) :
    (Api.analytics_query azcli (w0 :: rest) q ts gq false).1 =
      Except.ok (Api.AQOut.rows (Api.fallbackRows azcli q ts (w0 :: rest))) := by
  cases gq with
  | true => simp [Api.analytics_query, hgfail]
  | false =>
    cases rest with
    | nil => simp [Api.analytics_query, hgfail]
    | cons a as =>
      have hlen : ((w0 :: a :: as).length == 1) = false := by
        rw [beq_eq_false_iff_ne]
        simp [List.length_cons]
      simp [Api.analytics_query, hlen]

theorem flatten_map_filter {α β : Type} (p : α → Bool) (f : α → List β)
    (h : ∀ a, p a = false → f a = []) :
    ∀ l : List α, (l.map f).flatten = ((l.filter p).map f).flatten := by
  intro l
  induction l with
  | nil => rfl
  | cons a as ih =>
    by_cases hp : p a = true
    · rw [List.map_cons, List.flatten_cons, List.filter_cons_of_pos hp,
        List.map_cons, List.flatten_cons, ih]
    · have hpf : p a = false := by revert hp; cases p a <;> simp
      rw [List.map_cons, List.flatten_cons, h a hpf, List.nil_append,
        List.filter_cons_of_neg (by rw [hpf]; exact Bool.false_ne_true), ih]

/-- The remote executor of the C3 counterexample and witness: the grouped call
over both workspaces raises, the first workspace returns one row that already
carries a `TenantId` field, the second returns no rows. -/
def c3oracle : List String → Option (List Row) := fun cmd =>
  if cmd = Api.singleCmd ("q") ("P7D") ("w1") then some [[("TenantId", "orig")]]
  else if cmd = Api.singleCmd ("q") ("P7D") ("w2") then some [] else none

/-- C3 counterexample: in the fallback path the engine does not inject
`TenantId` only when absent — `dict.update` overwrites it.  With the grouped
call failing and workspace `w1` returning the single row with `TenantId` equal
to `orig`, the result row carries `TenantId` equal to `w1`, not the original
value the claim would preserve. -/
theorem c3_counterexample :
    (Api.analytics_query c3oracle ["w1", "w2"] ("q") ("P7D") true false).1 =
      Except.ok (Api.AQOut.rows [[("TenantId", "w1")]]) ∧
    (Api.analytics_query c3oracle ["w1", "w2"] ("q") ("P7D") true false).1 ≠
      Except.ok (Api.AQOut.rows [[("TenantId", "orig")]]) := by
  constructor
  · rfl
  · decide

/-- C3 (amended): when the grouped call for the batch fails and the
per-workspace fallback calls succeed, the result is the concatenation, in
workspace order, of each workspace's rows with `TenantId` unconditionally set
to that workspace's identifier (overwriting any existing value); a batch whose
grouped call succeeds keeps its grouped rows as returned. -/
theorem c3_fanout_degradation
    (azcli : List String → Option (List Row)) (q ts : String) (gq : Bool)
    (w0 : String) (rest : List String) (hnd : (w0 :: rest).Nodup)
    (hgfail : azcli (Api.groupedCmd q ts w0 rest) = none)
    (hsingle : ∀ w ∈ w0 :: rest, (azcli (Api.singleCmd q ts w)).isSome = true) :
    (Api.analytics_query azcli (w0 :: rest) q ts gq false).1 =
      Except.ok (Api.AQOut.rows (((w0 :: rest).map (fun w =>
        ((azcli (Api.singleCmd q ts w)).getD []).map
          (fun item => dictUpdate item ("TenantId") w))).flatten)) ∧
    ∀ (azcli2 : List String → Option (List Row)) (rows2 : List Row),
      azcli2 (Api.groupedCmd q ts w0 rest) = some rows2 →
      (Api.analytics_query azcli2 (w0 :: rest) q ts true false).1 =
        Except.ok (Api.AQOut.rows rows2) := by
  constructor
  · rw [aq_fst_fallback azcli q ts gq w0 rest hgfail,
      fallbackRows_eq azcli q ts (w0 :: rest) hnd]
  · intro azcli2 rows2 h2
    simp [Api.analytics_query, h2]

theorem c3_fanout_degradation_witness :
    (["w1", "w2"] : List String).Nodup ∧
    c3oracle (Api.groupedCmd ("q") ("P7D") ("w1") ["w2"]) = none ∧
    (∀ w ∈ ["w1", "w2"],
      (c3oracle (Api.singleCmd ("q") ("P7D") w)).isSome = true) ∧
    ((Api.analytics_query c3oracle ["w1", "w2"] ("q") ("P7D") true false).1 =
      Except.ok (Api.AQOut.rows ((["w1", "w2"].map (fun w =>
        ((c3oracle (Api.singleCmd ("q") ("P7D") w)).getD []).map
          (fun item => dictUpdate item ("TenantId") w))).flatten)) ∧
    ∀ (azcli2 : List String → Option (List Row)) (rows2 : List Row),
      azcli2 (Api.groupedCmd ("q") ("P7D") ("w1") ["w2"]) = some rows2 →
      (Api.analytics_query azcli2 ["w1", "w2"] ("q") ("P7D") true false).1 =
        Except.ok (Api.AQOut.rows rows2)) :=
  ⟨by decide, by rfl, by decide,
    c3_fanout_degradation c3oracle ("q") ("P7D") true ("w1") ["w2"]
      (by decide) (by rfl) (by decide)⟩

/-- C8: once the fallback path is reached (the grouped call over a non-empty
workspace list fails), the query returns an `Except.ok` row list for any
behaviour of the per-workspace calls: a workspace call that raises contributes
no rows, so the result is exactly the concatenation of the tagged rows of the
succeeding workspaces — possibly empty, possibly partial — and no single
workspace's failure propagates to the caller. -/
theorem c8_fallback_isolation
    (azcli : List String → Option (List Row)) (q ts : String) (gq : Bool)
    (w0 : String) (rest : List String) (hnd : (w0 :: rest).Nodup)
    (hgfail : azcli (Api.groupedCmd q ts w0 rest) = none) :
    (Api.analytics_query azcli (w0 :: rest) q ts gq false).1 =
      Except.ok (Api.AQOut.rows (Api.fallbackRows azcli q ts (w0 :: rest))) ∧
    Api.fallbackRows azcli q ts (w0 :: rest) =
      (((w0 :: rest).filter
          (fun w => (azcli (Api.singleCmd q ts w)).isSome)).map
        (fun w => ((azcli (Api.singleCmd q ts w)).getD []).map
          (fun item => dictUpdate item ("TenantId") w))).flatten := by
  constructor
  · exact aq_fst_fallback azcli q ts gq w0 rest hgfail
  · rw [fallbackRows_eq azcli q ts (w0 :: rest) hnd]
    apply flatten_map_filter
    intro w hw
    have hnone : azcli (Api.singleCmd q ts w) = none := by
      cases hx : azcli (Api.singleCmd q ts w)
      · rfl
      · rw [hx] at hw; simp at hw
    rw [hnone]
    rfl

theorem c8_fallback_isolation_witness :
    (["a", "b"] : List String).Nodup ∧
    (fun _ : List String => (none : Option (List Row)))
        (Api.groupedCmd ("q") ("P7D") ("a") ["b"]) = none ∧
    ((Api.analytics_query (fun _ => none) ["a", "b"] ("q") ("P7D") true false).1 =
      Except.ok (Api.AQOut.rows
        (Api.fallbackRows (fun _ => none) ("q") ("P7D") ["a", "b"])) ∧
    Api.fallbackRows (fun _ => none) ("q") ("P7D") ["a", "b"] =
      ((["a", "b"].filter
          (fun w => ((fun _ : List String => (none : Option (List Row)))
            (Api.singleCmd ("q") ("P7D") w)).isSome)).map
        (fun w => (((fun _ : List String => (none : Option (List Row)))
            (Api.singleCmd ("q") ("P7D") w)).getD []).map
          (fun item => dictUpdate item ("TenantId") w))).flatten) :=
  ⟨by decide, by rfl,
    c8_fallback_isolation (fun _ => none) ("q") ("P7D") true ("a") ["b"]
      (by decide) (by rfl)⟩

/-- C10 counterexample: with an empty workspace list, `dry_run=True` does not
return a command string — the command construction raises `IndexError` at
`workspaces[0]` before the dry-run return is reached. -/
theorem c10_counterexample :
    (Api.analytics_query (fun _ => none) [] ("q") ("P7D") false true).1 =
      Except.error ("list index out of range") := by rfl

/-- C10 (amended): for every non-empty workspace list, calling the fan-out
query with `dry_run` set issues no remote executor call (the call log is
empty) and deterministically returns the shell-quoted command string for the
single grouped call over the full workspace list, for any executor and
regardless of the `group_queries` flag. -/
theorem c10_dry_run
    (azcli : List String → Option (List Row)) (q ts : String) (gq : Bool)
    (w0 : String) (rest : List String) :
    Api.analytics_query azcli (w0 :: rest) q ts gq true =
      (Except.ok (Api.AQOut.cmd
        (Api.shlexJoin (["az"] ++ Api.groupedCmd q ts w0 rest))), []) := by
  cases gq <;> simp [Api.analytics_query]

theorem kql2df_rows_pos (oracle : Nat → Api.QOutcome) (kql ts : String)
    (a max_attempts : Nat) (data : List Api.JRow)
    (h : oracle a = Api.QOutcome.rows data) (hp : data.length > 0) :
    Api.kql2df oracle kql ts a max_attempts =
      (Except.ok (Api.jsonNormalize data), 1, []) := by
  rw [Api.kql2df, h]
  simp [hp]

theorem kql2df_rows_empty (oracle : Nat → Api.QOutcome) (kql ts : String)
    (a max_attempts : Nat) (h : oracle a = Api.QOutcome.rows []) :
    Api.kql2df oracle kql ts a max_attempts =
      (Except.ok [Api.noDataRow kql ts], 1, []) := by
  rw [Api.kql2df, h]
  simp

theorem kql2df_fail (oracle : Nat → Api.QOutcome) (kql ts : String)
    (a max_attempts : Nat) (msg : String)
    (h : oracle a = Api.QOutcome.fail msg) :
    Api.kql2df oracle kql ts a max_attempts =
      (Except.ok [Api.noDataRow kql ts], 1, []) := by
  rw [Api.kql2df, h]

theorem kql2df_timeout_step (oracle : Nat → Api.QOutcome) (kql ts : String)
    (a max_attempts : Nat) (h : oracle a = Api.QOutcome.timeout)
    (hlt : a < max_attempts) :
    Api.kql2df oracle kql ts a max_attempts =
      ((Api.kql2df oracle kql ts (a + 1) max_attempts).1,
        (Api.kql2df oracle kql ts (a + 1) max_attempts).2.1 + 1,
        (1 + a * 2) :: (Api.kql2df oracle kql ts (a + 1) max_attempts).2.2) := by
  conv_lhs => rw [Api.kql2df]
  rw [h]
  simp [hlt]

theorem kql2df_timeout_last (oracle : Nat → Api.QOutcome) (kql ts : String)
    (a max_attempts : Nat) (h : oracle a = Api.QOutcome.timeout)
    (hge : ¬ a < max_attempts) :
    Api.kql2df oracle kql ts a max_attempts =
      (Except.error ("ReadTimeout"), 1, []) := by
  rw [Api.kql2df, h]
  simp [hge]

theorem kql2df_after_timeouts (oracle : Nat → Api.QOutcome) (kql ts : String) :
    ∀ (k a max_attempts : Nat), a + k ≤ max_attempts →
      (∀ i, i < k → oracle (a + i) = Api.QOutcome.timeout) →
      Api.kql2df oracle kql ts a max_attempts =
        ((Api.kql2df oracle kql ts (a + k) max_attempts).1,
          (Api.kql2df oracle kql ts (a + k) max_attempts).2.1 + k,
          ((List.range k).map (fun i => 1 + (a + i) * 2)) ++
            (Api.kql2df oracle kql ts (a + k) max_attempts).2.2) := by
  intro k
  induction k with
  | zero =>
    intro a max_attempts _ _
    simp
  | succ k ih =>
    intro a max_attempts hle ht
    have h0 : oracle a = Api.QOutcome.timeout := by
      have := ht 0 (Nat.succ_pos k)
      rwa [Nat.add_zero] at this
    have hlt : a < max_attempts := by omega
    have ht1 : ∀ i, i < k → oracle (a + 1 + i) = Api.QOutcome.timeout := by
      intro i hi
      have := ht (i + 1) (by omega)
      rwa [show a + (i + 1) = a + 1 + i by omega] at this
    have haa : a + 1 + k = a + (k + 1) := by omega
    have hmap : (List.range k).map ((fun i => 1 + (a + i) * 2) ∘ Nat.succ) =
        (List.range k).map (fun i => 1 + (a + 1 + i) * 2) := by
      apply List.map_congr_left
      intro i _
      show 1 + (a + (i + 1)) * 2 = 1 + (a + 1 + i) * 2
      omega
    rw [kql2df_timeout_step oracle kql ts a max_attempts h0 hlt,
      ih (a + 1) max_attempts (by omega) ht1, haa]
    simp only [List.range_succ_eq_map, List.map_cons, List.map_map,
      List.cons_append, hmap, Nat.add_zero, Nat.add_assoc]

/-- C4 counterexample: with a remote executor that always raises a transient
timeout and `max_attempts = 5`, `kql2df` makes six underlying attempts (the
initial call plus five retries, with backoff sleeps 1, 3, 5, 7, 9 seconds)
before raising — not the five attempts the claim states. -/
theorem c4_counterexample :
    Api.kql2df (fun _ => Api.QOutcome.timeout) ("T") ("P7D") 0 5 =
      (Except.error ("ReadTimeout"), 6, [1, 3, 5, 7, 9]) ∧ (6 : Nat) ≠ 5 := by
  constructor
  · simp [Api.kql2df]
  · decide

/-- C4 (amended): with `max_attempts = 5`, if the underlying query raises a
transient timeout exactly `k < 5` times and then succeeds with non-empty data,
`kql2df` returns the flattened table after exactly `k + 1` underlying attempts,
sleeping `1 + attempt * 2` seconds before each retry; if every underlying
attempt raises a transient timeout, it raises after exactly
`max_attempts + 1 = 6` underlying attempts. -/
theorem c4_retry_bound (oracle : Nat → Api.QOutcome) (kql ts : String)
    (k : Nat) (data : List Api.JRow) (hk : k < 5) (hne : data ≠ [])
    (ht : ∀ i, i < k → oracle i = Api.QOutcome.timeout)
    (hs : oracle k = Api.QOutcome.rows data) :
    Api.kql2df oracle kql ts 0 5 =
      (Except.ok (Api.jsonNormalize data), k + 1,
        (List.range k).map (fun i => 1 + i * 2)) ∧
    ∀ oracle2 : Nat → Api.QOutcome,
      (∀ i, oracle2 i = Api.QOutcome.timeout) →
      Api.kql2df oracle2 kql ts 0 5 =
        (Except.error ("ReadTimeout"), 6,
          (List.range 5).map (fun i => 1 + i * 2)) := by
  constructor
  · have ht0 : ∀ i, i < k → oracle (0 + i) = Api.QOutcome.timeout := by
      intro i hi
      rw [Nat.zero_add]
      exact ht i hi
    have hmap : (List.range k).map (fun i => 1 + (0 + i) * 2) =
        (List.range k).map (fun i => 1 + i * 2) :=
      List.map_congr_left (fun i _ => by omega)
    rw [kql2df_after_timeouts oracle kql ts k 0 5 (by omega) ht0,
      kql2df_rows_pos oracle kql ts (0 + k) 5 data
        (by rwa [Nat.zero_add]) (by simpa [List.length_pos] using hne)]
    dsimp only
    rw [List.append_nil, Nat.add_comm 1 k, hmap]
  · intro oracle2 hto
    have hmap : (List.range 5).map (fun i => 1 + (0 + i) * 2) =
        (List.range 5).map (fun i => 1 + i * 2) :=
      List.map_congr_left (fun i _ => by omega)
    rw [kql2df_after_timeouts oracle2 kql ts 5 0 5 (by omega)
      (fun i _ => hto (0 + i)),
      kql2df_timeout_last oracle2 kql ts (0 + 5) 5 (hto (0 + 5)) (by omega)]
    dsimp only
    rw [List.append_nil, hmap]

theorem c4_retry_bound_witness :
    2 < 5 ∧ ([[("a", Api.JValue.str ("b"))]] : List Api.JRow) ≠ [] ∧
    (∀ i, i < 2 → (fun j => if j < 2 then Api.QOutcome.timeout
        else Api.QOutcome.rows [[("a", Api.JValue.str ("b"))]]) i =
      Api.QOutcome.timeout) ∧
    ((fun j => if j < 2 then Api.QOutcome.timeout
        else Api.QOutcome.rows [[("a", Api.JValue.str ("b"))]]) 2 =
      Api.QOutcome.rows [[("a", Api.JValue.str ("b"))]]) ∧
    (Api.kql2df (fun j => if j < 2 then Api.QOutcome.timeout
        else Api.QOutcome.rows [[("a", Api.JValue.str ("b"))]]) ("T") ("P7D") 0 5 =
      (Except.ok (Api.jsonNormalize [[("a", Api.JValue.str ("b"))]]), 2 + 1,
        (List.range 2).map (fun i => 1 + i * 2)) ∧
    ∀ oracle2 : Nat → Api.QOutcome,
      (∀ i, oracle2 i = Api.QOutcome.timeout) →
      Api.kql2df oracle2 ("T") ("P7D") 0 5 =
        (Except.error ("ReadTimeout"), 6,
          (List.range 5).map (fun i => 1 + i * 2))) :=
  ⟨by decide, by decide, by decide, by decide,
    c4_retry_bound (fun j => if j < 2 then Api.QOutcome.timeout
        else Api.QOutcome.rows [[("a", Api.JValue.str ("b"))]]) ("T") ("P7D")
      2 [[("a", Api.JValue.str ("b"))]] (by decide) (by decide)
      (by decide) (by decide)⟩

/-- C5: if the first underlying attempt succeeds with zero rows, or fails with
any non-timeout error, `kql2df` does not raise: it returns the single-row
placeholder whose column is the query's leading table token and whose value
states that no data was found in the requested timespan, after that one
attempt. -/
theorem c5_placeholder (oracle : Nat → Api.QOutcome) (kql ts : String)
    (h : oracle 0 = Api.QOutcome.rows [] ∨
      ∃ msg, oracle 0 = Api.QOutcome.fail msg) :
    Api.kql2df oracle kql ts 0 5 =
      (Except.ok [[(Api.leadingToken kql, "No Data in timespan " ++ ts)]],
        1, []) := by
  rcases h with h | ⟨msg, h⟩
  · rw [kql2df_rows_empty oracle kql ts 0 5 h]
    rfl
  · rw [kql2df_fail oracle kql ts 0 5 msg h]
    rfl

theorem c5_placeholder_witness :
    ((fun _ : Nat => Api.QOutcome.rows []) 0 = Api.QOutcome.rows [] ∨
      ∃ msg, (fun _ : Nat => Api.QOutcome.rows []) 0 = Api.QOutcome.fail msg) ∧
    Api.kql2df (fun _ => Api.QOutcome.rows []) ("SecurityIncident | take 1")
        ("P7D") 0 5 =
      (Except.ok [[(Api.leadingToken ("SecurityIncident | take 1"),
        "No Data in timespan " ++ ("P7D"))]], 1, []) :=
  ⟨Or.inl rfl,
    c5_placeholder (fun _ => Api.QOutcome.rows []) ("SecurityIncident | take 1")
      ("P7D") (Or.inl rfl)⟩

theorem kql2df_ok_ne_nil (oracle : Nat → Api.QOutcome) (kql ts : String) :
    ∀ (a max_attempts : Nat) (t : List Row),
      (Api.kql2df oracle kql ts a max_attempts).1 = Except.ok t → t ≠ [] := by
  intro a max_attempts t h
  cases ho : oracle a with
  | rows data =>
    by_cases hp : data.length > 0
    · rw [kql2df_rows_pos oracle kql ts a max_attempts data ho hp] at h
      have : Api.jsonNormalize data = t := by
        simpa using h
      subst this
      apply List.ne_nil_of_length_pos
      unfold Api.jsonNormalize
      rw [List.length_map]
      exact hp
    · have hdata : data = [] := by
        rcases data with _ | ⟨r, rs⟩
        · rfl
        · exact absurd (by simp [List.length_cons]) hp
      subst hdata
      rw [kql2df_rows_empty oracle kql ts a max_attempts ho] at h
      have : [Api.noDataRow kql ts] = t := by simpa using h
      subst this
      exact List.cons_ne_nil _ _
  | fail msg =>
    rw [kql2df_fail oracle kql ts a max_attempts msg ho] at h
    have : [Api.noDataRow kql ts] = t := by simpa using h
    subst this
    exact List.cons_ne_nil _ _
  | timeout =>
    by_cases hlt : a < max_attempts
    · rw [kql2df_timeout_step oracle kql ts a max_attempts ho hlt] at h
      exact kql2df_ok_ne_nil oracle kql ts (a + 1) max_attempts t h
    · rw [kql2df_timeout_last oracle kql ts a max_attempts ho hlt] at h
      simp at h
termination_by a max_attempts => max_attempts - a
decreasing_by omega

/-- C9: whenever `kql2df` returns normally (an `Except.ok` table rather than a
raised timeout), the returned table is non-empty — it is either the flattened
query data (at least one row by the non-emptiness assert) or the one-row
placeholder. -/
theorem c9_nonempty (oracle : Nat → Api.QOutcome) (kql ts : String)
    (attempt max_attempts : Nat) (t : List Row)
    (h : (Api.kql2df oracle kql ts attempt max_attempts).1 = Except.ok t) :
    t ≠ [] :=
  kql2df_ok_ne_nil oracle kql ts attempt max_attempts t h

theorem c9_nonempty_witness :
    (Api.kql2df (fun _ => Api.QOutcome.rows [[("a", Api.JValue.str ("b"))]])
        ("T") ("P7D") 0 5).1 =
      Except.ok [[(("a" : String), ("b" : String))]] ∧
    ([[(("a" : String), ("b" : String))]] : List Row) ≠ [] :=
  ⟨by simp [Api.kql2df, Api.jsonNormalize],
    c9_nonempty (fun _ => Api.QOutcome.rows [[("a", Api.JValue.str ("b"))]])
      ("T") ("P7D") 0 5 [[(("a" : String), ("b" : String))]]
      (by simp [Api.kql2df, Api.jsonNormalize])⟩


theorem truncate300_le (s : String) : (Api.truncate300 s).length ≤ 300 := by
  have h : (Api.truncate300 s).length = (s.toList.take 300).length := rfl
  rw [h, List.length_take]
  omega

theorem failLog_length_eq (jobs : List Api.IngestJob) :
    (Api.failLog jobs).length =
      (jobs.filter (fun j => j.2.toOption.isNone)).length := by
  induction jobs with
  | nil => rfl
  | cons j js ih =>
    unfold Api.failLog at ih ⊢
    cases hj : j.2 with
    | error e =>
      rw [List.flatMap_cons, hj, List.filter_cons_of_pos (by rw [hj]; rfl)]
      simp only [List.length_append, List.length_cons, List.length_nil, ih]
      omega
    | ok t =>
      rw [List.flatMap_cons, hj,
        List.filter_cons_of_neg (by rw [hj]; simp [Except.toOption])]
      simp only [List.nil_append, ih]

theorem failLog_perm (jobs jobs2 : List Api.IngestJob) (h : jobs2.Perm jobs) :
    (Api.failLog jobs2).Perm (Api.failLog jobs) := by
  unfold Api.failLog
  exact List.Perm.flatMap_right _ h

theorem successTables_perm (jobs jobs2 : List Api.IngestJob)
    (h : jobs2.Perm jobs) :
    (Api.successTables jobs2).Perm (Api.successTables jobs) := by
  unfold Api.successTables
  exact List.Perm.flatMap_right _ h

theorem colSum_perm (t1 t2 : List Api.IRow) (h : t1.Perm t2) (c : String) :
    Api.colSum t1 c = Api.colSum t2 c := by
  unfold Api.colSum
  exact (h.map _).sum_eq

/-- C6: for every set of ingestion jobs of which exactly `f` fail, the run
logs exactly `f` failures, each message truncated to at most 300 characters,
and builds its aggregate from exactly the succeeding jobs' tables, with both
the failure count and the per-column numeric sums independent of the
(shuffled) submission order. -/
theorem c6_scheduler_isolation (jobs jobs2 : List Api.IngestJob)
    (hperm : jobs2.Perm jobs) :
    (Api.failLog jobs2).length =
      (jobs.filter (fun j => j.2.toOption.isNone)).length ∧
    (∀ msg ∈ Api.failLog jobs2, msg.length ≤ 300) ∧
    (Api.successTables jobs2).Perm (Api.successTables jobs) ∧
    (Api.successTables jobs2 ≠ [] →
      Api.ingest_datalake_hot jobs2 =
        Except.ok (Api.failLog jobs2, (Api.successTables jobs2).flatten)) ∧
    (∀ c, Api.colSum (Api.successTables jobs2).flatten c =
      Api.colSum (Api.successTables jobs).flatten c) := by
  refine ⟨?_, ?_, ?_, ?_, ?_⟩
  · rw [(failLog_perm jobs jobs2 hperm).length_eq]
    exact failLog_length_eq jobs
  · intro msg hmsg
    unfold Api.failLog at hmsg
    rw [List.mem_flatMap] at hmsg
    obtain ⟨j, _, hj⟩ := hmsg
    revert hj
    cases j.2 with
    | error e =>
      intro hj
      rw [List.mem_singleton] at hj
      subst hj
      exact truncate300_le _
    | ok t => intro hj; exact absurd hj (List.not_mem_nil msg)
  · exact successTables_perm jobs jobs2 hperm
  · intro hne
    unfold Api.ingest_datalake_hot
    cases hs : Api.successTables jobs2 with
    | nil => exact absurd hs hne
    | cons t tss => rfl
  · intro c
    exact colSum_perm _ _ ((successTables_perm jobs jobs2 hperm).flatten) c

/-- The concrete job list of the C6 witness: two succeeding jobs and one
failing job. -/
def c6jobs : List Api.IngestJob :=
  [(("a"), Except.ok [[(("n"), (1 : Int))]]),
    (("b"), Except.error ("x")),
    (("c"), Except.ok [[(("n"), (2 : Int))]])]

/-- A permutation of `c6jobs`, as a shuffled submission order. -/
def c6jobs2 : List Api.IngestJob :=
  [(("c"), Except.ok [[(("n"), (2 : Int))]]),
    (("a"), Except.ok [[(("n"), (1 : Int))]]),
    (("b"), Except.error ("x"))]

theorem c6_scheduler_isolation_witness :
    c6jobs2.Perm c6jobs ∧
    ((Api.failLog c6jobs2).length =
      (c6jobs.filter (fun j => j.2.toOption.isNone)).length ∧
    (∀ msg ∈ Api.failLog c6jobs2, msg.length ≤ 300) ∧
    (Api.successTables c6jobs2).Perm (Api.successTables c6jobs) ∧
    (Api.successTables c6jobs2 ≠ [] →
      Api.ingest_datalake_hot c6jobs2 =
        Except.ok (Api.failLog c6jobs2, (Api.successTables c6jobs2).flatten)) ∧
    (∀ c, Api.colSum (Api.successTables c6jobs2).flatten c =
      Api.colSum (Api.successTables c6jobs).flatten c)) :=
  ⟨by decide, c6_scheduler_isolation c6jobs c6jobs2 (by decide)⟩

/-- C7 counterexample: when every ingestion job fails, the run does not return
a summary — `pandas.concat` over the empty result list raises, so the caller
gets an exception rather than a summary with a nonzero failure count. -/
theorem c7_counterexample :
    Api.ingest_datalake_hot [(("q"), Except.error ("boom"))] =
      Except.error ("No objects to concatenate") := by rfl

/-- C7 (amended): for every job sequence in which at least one job succeeds,
the ingestion run returns a summary normally, with individual job failures
reported only as data; when every job fails (or there are no jobs), the
aggregation step raises because there are no result tables to concatenate. -/
theorem c7_summary_total (jobs : List Api.IngestJob)
    (hsome : ∃ j ∈ jobs, ∃ t, j.2 = Except.ok t) :
    ∃ fails agg, Api.ingest_datalake_hot jobs = Except.ok (fails, agg) := by
  obtain ⟨j, hj, t, ht⟩ := hsome
  have hmem : t ∈ Api.successTables jobs := by
    unfold Api.successTables
    rw [List.mem_flatMap]
    exact ⟨j, hj, by rw [ht]; exact List.mem_singleton.mpr rfl⟩
  have hne : Api.successTables jobs ≠ [] := by
    intro he
    rw [he] at hmem
    exact List.not_mem_nil t hmem
  unfold Api.ingest_datalake_hot
  cases hs : Api.successTables jobs with
  | nil => exact absurd hs hne
  | cons a as => exact ⟨_, _, rfl⟩

/-- The concrete job list of the C7 witness: one succeeding and one failing
job. -/
def c7jobs : List Api.IngestJob :=
  [(("a"), Except.ok [[(("n"), (1 : Int))]]),
    (("b"), Except.error ("x"))]

theorem c7_summary_total_witness :
    (∃ j ∈ c7jobs, ∃ t, j.2 = Except.ok t) ∧
    ∃ fails agg, Api.ingest_datalake_hot c7jobs = Except.ok (fails, agg) :=
  ⟨⟨(("a"), Except.ok [[(("n"), (1 : Int))]]), by decide, [[(("n"), (1 : Int))]], rfl⟩,
    c7_summary_total c7jobs
      ⟨(("a"), Except.ok [[(("n"), (1 : Int))]]), by decide,
        [[(("n"), (1 : Int))]], rfl⟩⟩
